import Mathlib

/-!
Verification of the `streamlit_airbnb_dashboard.py` script (Archita287/airbnb-dashboard).

The script is a linear pipeline: load a CSV → clean/coerce columns → filter by two
user-selected sets (neighbourhood groups, room types) → build nine plotly charts.

We give a shallow embedding:

* the Loader (`load_data`, source lines 23–43) works on a `DataFrame` of named
  columns of raw cells; machine floats are modelled by `ℚ` (every numeric literal
  in the claims is exactly representable in binary64, so `ℚ` is faithful for them);
  pandas `NaN` is `Option.none`;
* the interactive part of the script (source lines 45–215) works on a typed
  `Table := List Row` view of the loaded frame; the two multiselect widgets are
  modelled by the lists of selected values they yield;
* each chart builder produces a `Chart` value recording the data slice and the
  encoding channels (column names) passed to the plotting library.

Where pandas orders aggregation keys (sorted keys for `groupby`, count-descending
for `value_counts`), the embedding keeps first-occurrence order; every claim below
is insensitive to the order of aggregation keys (they speak of sums and of sets of
keys), so this does not affect any verdict.
-/

namespace AirbnbDashboard

/-! ### Generic list helpers -/

/-- First-occurrence deduplication, the order `pandas.Series.unique()` returns
distinct values in. -/
def pdUnique {α : Type} [DecidableEq α] (l : List α) : List α :=
  l.foldl (fun acc x => if x ∈ acc then acc else acc ++ [x]) []

/-! ### Loader: raw cells, columns, frames (source lines 23–43)

A CSV column as pandas reads it is either of `object` dtype (strings, with
missing cells) or of a numeric dtype (numbers, with missing cells).  The code
at lines 34–38 branches on exactly this dtype test. -/

/-- A column of the raw frame: `object` dtype (text cells) or numeric dtype. -/
inductive Col
  | objCol (cells : List (Option String))
  | numCol (cells : List (Option ℚ))
  | dateCol (cells : List (Option String))
  deriving DecidableEq

/-- A data frame: named columns.  (All columns of a real frame have equal
length; none of the verified properties needs that invariant.) -/
structure DataFrame where
  cols : List (String × Col)
  deriving DecidableEq

/-- Column lookup, `df[name]`; `none` models the `KeyError` pandas raises when
the column is absent. -/
def getCol (df : DataFrame) (name : String) : Option Col :=
  (df.cols.find? (fun p => p.1 = name)).map (fun p => p.2)

/-- Column assignment `df[name] = c` for a column that already exists. -/
def setCol (df : DataFrame) (name : String) (c : Col) : DataFrame :=
  ⟨df.cols.map (fun p => if p.1 = name then (p.1, c) else p)⟩

/-- `df.columns.str.strip().str.replace(' ', '_')` (line 31): trim surrounding
whitespace, then replace each space by an underscore.  (Char-level model of the
two string operations; `.str.replace` with a one-character pattern is a
character map.) -/
def normalizeName (s : String) : String :=
  ⟨((s.data.dropWhile Char.isWhitespace).reverse.dropWhile Char.isWhitespace).reverse.map
    (fun c => if c = ' ' then '_' else c)⟩

/-- `numeric_cols` (line 15). -/
def numeric_cols : List String :=
  ["price", "service_fee", "minimum_nights", "number_of_reviews",
   "reviews_per_month", "availability_365"]

/-- Value of a list of decimal digit characters (most significant first). -/
def digitsToNat (l : List Char) : ℕ :=
  l.foldl (fun a c => 10 * a + (c.toNat - 48)) 0

/-- Split a character list at its first `'.'`, if any. -/
def splitDot : List Char → List Char × Option (List Char)
  | [] => ([], none)
  | c :: rest =>
    if c = '.' then ([], some rest)
    else
      let p := splitDot rest
      (c :: p.1, p.2)

/-- `float(s)` on the decimal forms relevant here: optional sign, then digits
with at most one decimal point and at least one digit.  (Python's `float` also
accepts exponent/`inf`/`nan` spellings and surrounding whitespace; no cell the
spec or the claims mention uses them.)  `none` models the `ValueError` raise. -/
def parseFloat (s : String) : Option ℚ :=
  let l := s.data
  let sgn : ℚ := if l.headD ' ' = '-' then -1 else 1
  let body := if l.headD ' ' = '-' ∨ l.headD ' ' = '+' then l.tail else l
  let ip := (splitDot body).1
  match (splitDot body).2 with
  | none =>
    if ip ≠ [] ∧ ip.all Char.isDigit then some (sgn * digitsToNat ip) else none
  | some fp =>
    if '.' ∉ fp ∧ ip.all Char.isDigit ∧ fp.all Char.isDigit ∧ (ip ≠ [] ∨ fp ≠ []) then
      some (sgn * ((digitsToNat ip : ℚ) + (digitsToNat fp : ℚ) / (10 ^ fp.length)))
    else none

/-- Remove every occurrence of a character: `.str.replace(c, '')` with a
one-character pattern deletes each occurrence of `c`. -/
def removeChar (c : Char) (s : String) : String :=
  ⟨s.data.filter (fun d => d ≠ c)⟩

/-- `.str.replace('$', '').str.replace(',', '')` (line 36). -/
def stripCurrency (s : String) : String :=
  removeChar ',' (removeChar '$' s)

/-- Spec-side description of a currency-formatted integer part: digit groups
joined by commas (`"2,000"` is `commaJoin [['2'], ['0','0','0']]`). -/
def commaJoin : List (List Char) → List Char
  | [] => []
  | [g] => g
  | g :: gs => g ++ ',' :: commaJoin gs

/-- The optional fractional part of a currency-formatted cell, as characters. -/
def fracPart : Option (List Char) → List Char
  | some f => '.' :: f
  | none => []

/-- The value the optional fractional part denotes. -/
def fracValue : Option (List Char) → ℚ
  | some f => (digitsToNat f : ℚ) / (10 ^ f.length)
  | none => 0

/-- Spec-side description of a currency-formatted cell: `'$'`, then digit
groups joined by commas, then an optional fractional part after `'.'`. -/
def currencyText (groups : List (List Char)) (frac : Option (List Char)) : String :=
  ⟨'$' :: (commaJoin groups ++ fracPart frac)⟩

/-- The exact numeric value a currency-formatted cell denotes. -/
def currencyValue (groups : List (List Char)) (frac : Option (List Char)) : ℚ :=
  (digitsToNat groups.flatten : ℚ) + fracValue frac

/-- Per-cell currency coercion: strip `$` and `,`, then parse as float
(line 36, applied cell-wise); a missing cell stays missing. -/
def coerceCell (cell : Option String) : Option (Option ℚ) :=
  match cell with
  | none => some none
  | some s => (parseFloat (stripCurrency s)).map some

/-- `astype(float)` over a column of text cells: every non-missing cell must
parse or the whole conversion raises (`none`). -/
def astypeFloat : List (Option String) → Option (List (Option ℚ))
  | [] => some []
  | cell :: rest => do
    let v ← coerceCell cell
    let vs ← astypeFloat rest
    pure (v :: vs)

/-- The anomalies `load_data` can raise. -/
inductive LoadErr
  | fileNotFound   -- `pd.read_csv` on an absent path
  | keyError       -- `df[col]` with the column absent
  | valueError     -- `astype(float)` on an unparseable cell
  deriving DecidableEq

/-- Lines 34–38: one designated numeric column is coerced.  `object` dtype:
strip `$`/`,` and `astype(float)` (raises on an unparseable cell); any other
dtype: `pd.to_numeric(errors='coerce')`, which on an already-numeric column
returns it unchanged (a date column is first viewed through its numeric
representation; no claim depends on that branch's values, only on it not
raising). -/
def coerceNumeric : Col → Except LoadErr Col
  | .objCol cells =>
    match astypeFloat cells with
    | some out => .ok (.numCol out)
    | none => .error .valueError
  | .numCol cells => .ok (.numCol cells)
  | .dateCol cells => .ok (.dateCol cells)

/-- The loop body of lines 34–38 for one column name: `df[col]` (KeyError if
absent) then dtype-directed coercion, written back in place. -/
def coerceStep (df : DataFrame) (name : String) : Except LoadErr DataFrame :=
  match getCol df name with
  | none => .error .keyError
  | some c => do
    let c' ← coerceNumeric c
    pure (setCol df name c')

/-- An ISO `YYYY-MM-DD` date check; `pd.to_datetime(errors='coerce')` accepts
far more formats, but no claim inspects the parsed dates — only that
unparseable values coerce to missing without raising. -/
def parseDate (s : String) : Option String :=
  match s.data with
  | [y1, y2, y3, y4, '-', m1, m2, '-', d1, d2] =>
    if [y1, y2, y3, y4, m1, m2, d1, d2].all Char.isDigit then some s else none
  | _ => none

/-- `pd.to_datetime(df['last_review'], errors='coerce')` (line 41): total on
the column's cells, unparseable cells become missing. -/
def toDatetimeCoerce : Col → Col
  | .objCol cells => .dateCol (cells.map (fun c => c.bind parseDate))
  | .numCol _ => .dateCol []
  | .dateCol cells => .dateCol cells

/-- Line 31 applied to the whole frame: every column name normalized. -/
def normalizeFrame (df : DataFrame) : DataFrame :=
  ⟨df.cols.map (fun p => (normalizeName p.1, p.2))⟩

/-- `load_data` (lines 23–43).  The input is `some df` when the file exists and
parses as a CSV with a header row (`df` being what `pd.read_csv` returns), and
`none` when the file is absent (`FileNotFoundError`). -/
def load_data (file : Option DataFrame) : Except LoadErr DataFrame :=
  match file with
  | none => .error .fileNotFound
  | some df₀ => do
    let df₂ ← numeric_cols.foldlM coerceStep (normalizeFrame df₀)
    match getCol df₂ "last_review" with
    | none => .error .keyError
    | some c => pure (setCol df₂ "last_review" (toDatetimeCoerce c))

/-- Whether dtype-directed coercion of a column succeeds. -/
def coerceOk (c : Col) : Bool :=
  match coerceNumeric c with
  | .ok _ => true
  | .error _ => false

/-- Whether the numeric-coercion loop body succeeds on one column name. -/
def coerceColOk (df : DataFrame) (name : String) : Bool :=
  match getCol df name with
  | some c => coerceOk c
  | none => false

/-- The load-time accesses that can raise, all satisfied: every designated
numeric column is present and coercible, and `last_review` is present. -/
def loadReady (df : DataFrame) : Bool :=
  numeric_cols.all (coerceColOk df) && (getCol df "last_review").isSome

/-! ### The typed table (the view the interactive code works on)

After a successful load, the script only ever reads the columns below.  A
`Row` is one listing.  The categorical text columns are modelled as `String`
(the claims about filters and aggregates quantify over their values), the six
designated numeric columns as `Option ℚ` (missing = `NaN`). -/

structure Row where
  NAME : String                   -- hover-label column, spelled `NAME` in the CSV
  neighbourhood_group : String
  room_type : String
  instant_bookable : String
  price : Option ℚ
  service_fee : Option ℚ
  minimum_nights : Option ℚ
  number_of_reviews : Option ℚ
  reviews_per_month : Option ℚ
  availability_365 : Option ℚ
  last_review : Option String
  deriving DecidableEq

abbrev Table := List Row

/-- String cell of a column at one index, for building the typed view. -/
def strCellAt (df : DataFrame) (name : String) (i : ℕ) : String :=
  match getCol df name with
  | some (.objCol cells) => ((cells.getD i none).getD "")
  | _ => ""

/-- Numeric cell of a column at one index, for building the typed view. -/
def numCellAt (df : DataFrame) (name : String) (i : ℕ) : Option ℚ :=
  match getCol df name with
  | some (.numCol cells) => cells.getD i none
  | _ => none

/-- Date cell of `last_review` at one index, for building the typed view. -/
def dateCellAt (df : DataFrame) (name : String) (i : ℕ) : Option String :=
  match getCol df name with
  | some (.dateCol cells) => cells.getD i none
  | _ => none

/-- Number of rows of the frame. -/
def nRows (df : DataFrame) : ℕ :=
  (df.cols.map (fun p => match p.2 with
    | .objCol cells => cells.length
    | .numCol cells => cells.length
    | .dateCol cells => cells.length)).foldr max 0

/-- The typed view of a loaded frame. -/
def tableOf (df : DataFrame) : Table :=
  (List.range (nRows df)).map (fun i =>
    { NAME := strCellAt df "NAME" i
      neighbourhood_group := strCellAt df "neighbourhood_group" i
      room_type := strCellAt df "room_type" i
      instant_bookable := strCellAt df "instant_bookable" i
      price := numCellAt df "price" i
      service_fee := numCellAt df "service_fee" i
      minimum_nights := numCellAt df "minimum_nights" i
      number_of_reviews := numCellAt df "number_of_reviews" i
      reviews_per_month := numCellAt df "reviews_per_month" i
      availability_365 := numCellAt df "availability_365" i
      last_review := dateCellAt df "last_review" i })

/-! ### Filter stage (source lines 56–71) -/

/-- `data['neighbourhood_group'].unique()` (line 56). -/
def uniqueNeighbourhoodGroups (data : Table) : List String :=
  pdUnique (data.map Row.neighbourhood_group)

/-- `data[data['neighbourhood_group'].isin(selected_groups)]` (line 62). -/
def filteredByGroup (data : Table) (selected_groups : List String) : Table :=
  data.filter (fun r => r.neighbourhood_group ∈ selected_groups)

/-- `filtered_data['room_type'].unique()` (line 65): the room-type options the
sidebar offers, computed from the group-filtered table. -/
def uniqueRoomTypes (data : Table) (selected_groups : List String) : List String :=
  pdUnique ((filteredByGroup data selected_groups).map Row.room_type)

/-- `filtered_data[filtered_data['room_type'].isin(selected_room_types)]`
(line 71): the table every chart builder consumes. -/
def filteredData (data : Table) (selected_groups selected_room_types : List String) : Table :=
  (filteredByGroup data selected_groups).filter
    (fun r => r.room_type ∈ selected_room_types)

/-! ### Chart stage (source lines 85–215)

Each builder records the data slice and the encoding channels handed to the
plotting call.  The heatmap's Pearson coefficients are irrational in general
(square roots); no claim mentions their values, so the heatmap chart records
the `filtered_data[numeric_cols]` matrix the `.corr()` call consumes. -/

inductive Chart
  | barCounts (rows : List ((String × String) × ℕ)) (x y color : String)
  | pie (slices : List (String × ℕ)) (hole : ℚ) (pull : List ℚ)
  | barMeans (rows : List (String × Option ℚ)) (x y : String)
  | scatterChart (rows : Table) (x y : String) (size : Option String)
      (color : String) (hover : String)
  | boxChart (rows : Table) (x y : String)
  | heatmap (cols : List (String × List (Option ℚ)))
  deriving DecidableEq

/-- `groupby(['neighbourhood_group', 'room_type']).size()` (line 88): one count
per distinct (group, room-type) pair occurring in the table. -/
def groupRoomCounts (t : Table) : List ((String × String) × ℕ) :=
  (pdUnique (t.map (fun r => (r.neighbourhood_group, r.room_type)))).map
    (fun k => (k, (t.filter (fun r => (r.neighbourhood_group, r.room_type) = k)).length))

/-- `fig_bar` (lines 87–94). -/
def figBar (t : Table) : Chart :=
  .barCounts (groupRoomCounts t) "neighbourhood_group" "count" "room_type"

/-- `filtered_data['room_type'].value_counts()` (line 99): one count per
distinct room type occurring in the table. -/
def roomTypeCounts (t : Table) : List (String × ℕ) :=
  (pdUnique (t.map Row.room_type)).map
    (fun k => (k, (t.filter (fun r => r.room_type = k)).length))

/-- `fig_pie_room_type` (lines 101–107), a donut pie over the room-type counts. -/
def figPieRoomType (t : Table) : Chart :=
  .pie (roomTypeCounts t) (2/5) []

/-- `filtered_data['neighbourhood_group'].value_counts()` (line 113). -/
def neighbourhoodCounts (t : Table) : List (String × ℕ) :=
  (pdUnique (t.map Row.neighbourhood_group)).map
    (fun k => (k, (t.filter (fun r => r.neighbourhood_group = k)).length))

/-- `fig_pie_group` (lines 117–122), every slice pulled out by `0.1`. -/
def figPieGroup (t : Table) : Chart :=
  .pie (neighbourhoodCounts t) (3/10)
    (List.replicate (neighbourhoodCounts t).length (1/10))

/-- `filtered_data['instant_bookable'].value_counts()` (line 131). -/
def instantBookableCounts (t : Table) : List (String × ℕ) :=
  (pdUnique (t.map Row.instant_bookable)).map
    (fun k => (k, (t.filter (fun r => r.instant_bookable = k)).length))

/-- `fig_pie_instant` (lines 133–139). -/
def figPieInstant (t : Table) : Chart :=
  .pie (instantBookableCounts t) 0 []

/-- `groupby('neighbourhood_group')['reviews_per_month'].mean()` (line 150):
pandas' mean skips missing entries within each group; a group whose entries
are all missing gets a missing mean.  Rows with missing `reviews_per_month`
are NOT dropped from the input: their group still contributes a bar. -/
def avgReviewsByGroup (t : Table) : List (String × Option ℚ) :=
  (pdUnique (t.map Row.neighbourhood_group)).map (fun g =>
    let vals := (t.filter (fun r => r.neighbourhood_group = g)).filterMap
      Row.reviews_per_month
    (g, if vals.length = 0 then none else some (vals.sum / vals.length)))

/-- `fig_avg_reviews` (lines 151–158). -/
def figAvgReviews (t : Table) : Chart :=
  .barMeans (avgReviewsByGroup t) "neighbourhood_group" "reviews_per_month"

/-- `filtered_data.dropna(subset=['reviews_per_month'])` (line 164): the bubble
scatter's input, rows with missing `reviews_per_month` removed first. -/
def bubbleData (t : Table) : Table :=
  t.filter (fun r => r.reviews_per_month.isSome)

/-- `fig_bubble` (lines 163–172): x = minimum nights, y = price, bubble size =
reviews per month, colour = room type, hover label = the `NAME` column. -/
def figBubble (t : Table) : Chart :=
  .scatterChart (bubbleData t) "minimum_nights" "price" (some "reviews_per_month")
    "room_type" "NAME"

/-- `fig_scatter` (lines 176–184): x = availability, y = price, colour = room
type, hover label = the `NAME` column; no missing-data row is dropped. -/
def figScatter (t : Table) : Chart :=
  .scatterChart t "availability_365" "price" none "room_type" "NAME"

/-- `fig_box` (lines 195–202). -/
def figBox (t : Table) : Chart :=
  .boxChart t "neighbourhood_group" "minimum_nights"

/-- `filtered_data[numeric_cols]` (line 207), the matrix `.corr()` consumes. -/
def corrInput (t : Table) : List (String × List (Option ℚ)) :=
  [("price", t.map Row.price),
   ("service_fee", t.map Row.service_fee),
   ("minimum_nights", t.map Row.minimum_nights),
   ("number_of_reviews", t.map Row.number_of_reviews),
   ("reviews_per_month", t.map Row.reviews_per_month),
   ("availability_365", t.map Row.availability_365)]

/-- `fig_heatmap` (lines 208–214). -/
def figHeatmap (t : Table) : Chart :=
  .heatmap (corrInput t)

/-- The nine chart builders of the page, in source order (the nine
`st.plotly_chart` panels at lines 95, 108, 127, 140, 159, 173, 185, 203, 215). -/
def charts (t : Table) : List Chart :=
  [figBar t, figPieRoomType t, figPieGroup t, figPieInstant t, figAvgReviews t,
   figBubble t, figScatter t, figBox t, figHeatmap t]

/-! ### The script (top-level control flow) -/

/-- The hover-label column a chart passes to the plotting call, if any. -/
def chartHover : Chart → Option String
  | .scatterChart _ _ _ _ _ h => some h
  | _ => none

/-- Outcome of one top-to-bottom run of the script. -/
inductive ScriptResult
  | errorFileNotFound                -- lines 48–50: `st.error` + `st.stop()`
  | uncaught (e : LoadErr)           -- a load exception other than FileNotFoundError
  | warnEmpty                        -- lines 77–79: `st.warning` + `st.stop()`
  | page (rendered : List Chart)     -- the nine chart panels
  deriving DecidableEq

/-- The charts a run rendered, if it reached the chart stage. -/
def renderedCharts : ScriptResult → Option (List Chart)
  | .page cs => some cs
  | _ => none

/-- Lines 52–215: the part of the script from the sidebar on, given the loaded
table and the two multiselect selections. -/
def dashboard (data : Table) (selected_groups selected_room_types : List String) :
    ScriptResult :=
  let fd := filteredData data selected_groups selected_room_types
  if fd.isEmpty then .warnEmpty else .page (charts fd)

/-- Lines 45–215: one full run.  `file` is `some df` when
`airbnb_project_cleaned.csv` exists (with `pd.read_csv`'s parse of it), `none`
when it is absent.  Only `FileNotFoundError` is caught (line 48); any other
load exception escapes the `try`. -/
def script (file : Option DataFrame) (selected_groups selected_room_types : List String) :
    ScriptResult :=
  match load_data file with
  | .error .fileNotFound => .errorFileNotFound
  | .error e => .uncaught e
  | .ok df => dashboard (tableOf df) selected_groups selected_room_types

/-! ### Concrete fixtures used to evaluate the theorems -/

/-- A Manhattan listing with complete data. -/
def rowA : Row :=
  { NAME := "Cozy loft", neighbourhood_group := "Manhattan",
    room_type := "Entire home/apt", instant_bookable := "TRUE",
    price := some 150, service_fee := some 30, minimum_nights := some 2,
    number_of_reviews := some 10, reviews_per_month := some (3/2),
    availability_365 := some 200, last_review := some "2023-05-01" }

/-- A Brooklyn listing whose `reviews_per_month` is missing. -/
def sampleRowM : Row :=
  { NAME := "Quiet room", neighbourhood_group := "Brooklyn",
    room_type := "Private room", instant_bookable := "FALSE",
    price := some 80, service_fee := some 16, minimum_nights := some 1,
    number_of_reviews := some 0, reviews_per_month := none,
    availability_365 := some 120, last_review := none }

/-- A second Brooklyn listing with complete data. -/
def rowC : Row :=
  { NAME := "Sunny studio", neighbourhood_group := "Brooklyn",
    room_type := "Entire home/apt", instant_bookable := "TRUE",
    price := some 120, service_fee := some 24, minimum_nights := some 3,
    number_of_reviews := some 5, reviews_per_month := some 2,
    availability_365 := some 300, last_review := some "2024-01-15" }

/-- A small fixture table. -/
def sampleTable : Table := [rowA, sampleRowM, rowC]

/-- A frame with every required column present whose `price` column is of
`object` dtype and holds one cell that does not parse after stripping. -/
def badFrame : DataFrame :=
  ⟨[("NAME", .objCol [some "Cozy loft"]),
    ("neighbourhood_group", .objCol [some "Manhattan"]),
    ("room_type", .objCol [some "Entire home/apt"]),
    ("instant_bookable", .objCol [some "TRUE"]),
    ("price", .objCol [some "abc"]),
    ("service_fee", .objCol [some "$30"]),
    ("minimum_nights", .numCol [some 2]),
    ("number_of_reviews", .numCol [some 10]),
    ("reviews_per_month", .numCol [some (3/2)]),
    ("availability_365", .numCol [some 200]),
    ("last_review", .objCol [some "2023-05-01"])]⟩

/-- A frame on which every load-time access succeeds; note the `price ` header
with trailing whitespace that line 31 normalizes away, and the
currency-formatted text cells. -/
def goodFrame : DataFrame :=
  ⟨[("NAME", .objCol [some "Cozy loft", some "Quiet room"]),
    ("neighbourhood_group", .objCol [some "Manhattan", some "Brooklyn"]),
    ("room_type", .objCol [some "Entire home/apt", some "Private room"]),
    ("instant_bookable", .objCol [some "TRUE", some "FALSE"]),
    ("price ", .objCol [some "$2,000", some "$80"]),
    ("service_fee", .objCol [some "$30", none]),
    ("minimum_nights", .numCol [some 2, some 1]),
    ("number_of_reviews", .numCol [some 10, some 0]),
    ("reviews_per_month", .numCol [some (3/2), none]),
    ("availability_365", .numCol [some 200, some 120]),
    ("last_review", .objCol [some "2023-05-01", some "not a date"])]⟩

/-! ## Properties of `pdUnique` -/

theorem foldl_uniq_mem {α : Type} [DecidableEq α] (l : List α) (acc : List α) (x : α) :
    x ∈ l.foldl (fun acc y => if y ∈ acc then acc else acc ++ [y]) acc ↔
      x ∈ acc ∨ x ∈ l := by
  induction l generalizing acc with
  | nil => simp
  | cons y ys ih =>
    simp only [List.foldl_cons]
    rw [ih]
    by_cases h : y ∈ acc
    · rw [if_pos h, List.mem_cons]
      constructor
      · rintro (h1 | h2)
        · exact Or.inl h1
        · exact Or.inr (Or.inr h2)
      · rintro (h1 | rfl | h2)
        · exact Or.inl h1
        · exact Or.inl h
        · exact Or.inr h2
    · rw [if_neg h, List.mem_cons]
      simp only [List.mem_append, List.mem_singleton]
      constructor
      · rintro (⟨h1 | rfl⟩ | h2)
        · exact Or.inl h1
        · exact Or.inr (Or.inl rfl)
        · exact Or.inr (Or.inr h2)
      · rintro (h1 | rfl | h2)
        · exact Or.inl (Or.inl h1)
        · exact Or.inl (Or.inr rfl)
        · exact Or.inr h2

theorem foldl_uniq_nodup {α : Type} [DecidableEq α] (l : List α) (acc : List α)
    (hacc : acc.Nodup) :
    (l.foldl (fun acc y => if y ∈ acc then acc else acc ++ [y]) acc).Nodup := by
  induction l generalizing acc with
  | nil => simpa
  | cons y ys ih =>
    simp only [List.foldl_cons]
    apply ih
    by_cases h : y ∈ acc
    · rwa [if_pos h]
    · rw [if_neg h]
      rw [List.nodup_append]
      exact ⟨hacc, List.nodup_singleton y,
        fun a ha hay => h ((List.mem_singleton.1 hay) ▸ ha)⟩

theorem mem_pdUnique {α : Type} [DecidableEq α] (l : List α) (x : α) :
    x ∈ pdUnique l ↔ x ∈ l := by
  unfold pdUnique
  rw [foldl_uniq_mem]
  simp

theorem pdUnique_nodup {α : Type} [DecidableEq α] (l : List α) : (pdUnique l).Nodup :=
  foldl_uniq_nodup l [] List.nodup_nil

/-! ## Counting lemmas for the aggregation builders -/

theorem sum_map_ite_zero {β : Type} [DecidableEq β] (keys : List β) (b : β)
    (hb : b ∉ keys) :
    (keys.map (fun k => if b = k then (1 : ℕ) else 0)).sum = 0 := by
  induction keys with
  | nil => rfl
  | cons k ks ih =>
    have hbk : b ≠ k := fun h => hb (h ▸ List.mem_cons_self k ks)
    simp only [List.map_cons, List.sum_cons, if_neg hbk]
    rw [ih (fun h => hb (List.mem_cons_of_mem k h))]

theorem sum_map_ite_one {β : Type} [DecidableEq β] (keys : List β) (hnd : keys.Nodup)
    (b : β) (hb : b ∈ keys) :
    (keys.map (fun k => if b = k then (1 : ℕ) else 0)).sum = 1 := by
  induction keys with
  | nil => cases hb
  | cons k ks ih =>
    rw [List.nodup_cons] at hnd
    rcases List.mem_cons.1 hb with rfl | hbks
    · simp only [List.map_cons, List.sum_cons]
      rw [sum_map_ite_zero ks b hnd.1]
      simp
    · have hbk : b ≠ k := fun h => hnd.1 (h ▸ hbks)
      simp only [List.map_cons, List.sum_cons, if_neg hbk]
      rw [ih hnd.2 hbks]

theorem list_sum_map_add {α M : Type} [AddCommMonoid M] (l : List α) (f g : α → M) :
    (l.map (fun x => f x + g x)).sum = (l.map f).sum + (l.map g).sum := by
  induction l with
  | nil => simp
  | cons a l ih =>
    simp only [List.map_cons, List.sum_cons, ih]
    abel

theorem list_sum_map_div {α : Type} (l : List α) (f : α → ℚ) (d : ℚ) :
    (l.map (fun x => f x / d)).sum = (l.map f).sum / d := by
  induction l with
  | nil => simp
  | cons a l ih => simp [ih, add_div]

/-- Distinct keys covering a list partition it: the per-key filter lengths sum
to the list's length. -/
theorem sum_filter_lengths {α β : Type} [DecidableEq β] (keys : List β)
    (hnd : keys.Nodup) (l : List α) (f : α → β) (hcov : ∀ x ∈ l, f x ∈ keys) :
    (keys.map (fun k => (l.filter (fun x => f x = k)).length)).sum = l.length := by
  induction l with
  | nil => simp
  | cons a l ih =>
    have hsplit : ∀ k ∈ keys, ((a :: l).filter (fun x => f x = k)).length
        = (if f a = k then (1 : ℕ) else 0) + (l.filter (fun x => f x = k)).length := by
      intro k _
      by_cases h : f a = k <;> simp [List.filter_cons, h, Nat.add_comm]
    rw [List.map_congr_left hsplit, list_sum_map_add,
      sum_map_ite_one keys hnd (f a) (hcov a (List.mem_cons_self a l)),
      ih (fun x hx => hcov x (List.mem_cons_of_mem a hx))]
    simp [List.length_cons, Nat.add_comm]

/-- Counting the occurrences of each distinct key conserves the row count. -/
theorem sum_group_counts {α β : Type} [DecidableEq β] (l : List α) (f : α → β) :
    ((pdUnique (l.map f)).map (fun k => (l.filter (fun x => f x = k)).length)).sum
      = l.length :=
  sum_filter_lengths _ (pdUnique_nodup _) l f
    (fun _ hx => (mem_pdUnique _ _).2 (List.mem_map_of_mem f hx))

/-! ## C3 — monotonicity of the group filter -/

/-- C3: the group filter is monotone in the selection set: if every group of
`A` is also selected in `B`, the `A`-filtered table has at most as many rows
as the `B`-filtered table. -/
theorem group_filter_monotone (t : Table) (A B : List String)
    (hAB : ∀ x ∈ A, x ∈ B) :
    (filteredByGroup t A).length ≤ (filteredByGroup t B).length := by
  refine List.Sublist.length_le (List.monotone_filter_right t ?_)
  intro r hr
  simp only [decide_eq_true_eq] at hr ⊢
  exact hAB _ hr

/-- Witness for C3 at a concrete table and a concrete pair of selection sets. -/
theorem group_filter_monotone_witness :
    (∀ x ∈ (["Brooklyn"] : List String), x ∈ (["Manhattan", "Brooklyn"] : List String)) ∧
    (filteredByGroup sampleTable ["Brooklyn"]).length ≤
      (filteredByGroup sampleTable ["Manhattan", "Brooklyn"]).length :=
  ⟨by decide, group_filter_monotone sampleTable ["Brooklyn"] ["Manhattan", "Brooklyn"] (by decide)⟩

/-! ## C4 — room-type options come from the group-filtered subset -/

/-- C4: the room-type options offered are exactly the distinct `room_type`
values of the group-filtered subset, and narrowing the group selection can
only narrow the option set. -/
theorem room_options_from_filtered (t : Table) (A B : List String)
    (hAB : ∀ x ∈ A, x ∈ B) :
    (uniqueRoomTypes t A).toFinset = ((filteredByGroup t A).map Row.room_type).toFinset ∧
    (uniqueRoomTypes t A).toFinset ⊆ (uniqueRoomTypes t B).toFinset := by
  constructor
  · ext x
    simp [uniqueRoomTypes, mem_pdUnique]
  · intro x hx
    simp only [List.mem_toFinset, uniqueRoomTypes, mem_pdUnique, List.mem_map] at hx ⊢
    obtain ⟨r, hr, rfl⟩ := hx
    refine ⟨r, ?_, rfl⟩
    simp only [filteredByGroup, List.mem_filter, decide_eq_true_eq] at hr ⊢
    exact ⟨hr.1, hAB _ hr.2⟩

/-- Witness for C4 at a concrete table and pair of selection sets. -/
theorem room_options_from_filtered_witness :
    (∀ x ∈ (["Brooklyn"] : List String), x ∈ (["Brooklyn", "Manhattan"] : List String)) ∧
    ((uniqueRoomTypes sampleTable ["Brooklyn"]).toFinset
        = ((filteredByGroup sampleTable ["Brooklyn"]).map Row.room_type).toFinset ∧
      (uniqueRoomTypes sampleTable ["Brooklyn"]).toFinset ⊆
        (uniqueRoomTypes sampleTable ["Brooklyn", "Manhattan"]).toFinset) :=
  ⟨by decide, room_options_from_filtered sampleTable ["Brooklyn"] ["Brooklyn", "Manhattan"] (by decide)⟩

/-! ## C5 — empty filter result warns and halts -/

/-- C5 (amended: the page has nine chart builders, not eleven): an empty group
or room-type selection gives a zero-row filtered table, and whenever the
filtered table is empty the run emits the empty-result warning and stops
before building any chart. -/
theorem empty_selection_halts (data : Table) (A R : List String)
    (h : A = [] ∨ R = [] ∨ filteredData data A R = []) :
    filteredData data A R = [] ∧ dashboard data A R = .warnEmpty ∧
    renderedCharts (dashboard data A R) = none := by
  have hfd : filteredData data A R = [] := by
    rcases h with rfl | rfl | h
    · simp [filteredData, filteredByGroup, List.filter_eq_nil_iff]
    · simp [filteredData, List.filter_eq_nil_iff]
    · exact h
  refine ⟨hfd, ?_, ?_⟩ <;> simp [dashboard, hfd, renderedCharts]

/-- Counterexample to C5 as stated: the script builds nine chart panels, not
eleven. -/
theorem eleven_builders_counterexample :
    (charts sampleTable).length = 9 ∧ (charts sampleTable).length ≠ 11 :=
  ⟨rfl, by decide⟩

/-- Witness for C5 at a concrete table with an empty group selection. -/
theorem empty_selection_halts_witness :
    (([] : List String) = [] ∨ (["Private room"] : List String) = [] ∨
      filteredData sampleTable [] ["Private room"] = []) ∧
    (filteredData sampleTable [] ["Private room"] = [] ∧
      dashboard sampleTable [] ["Private room"] = .warnEmpty ∧
      renderedCharts (dashboard sampleTable [] ["Private room"]) = none) :=
  ⟨Or.inl rfl, empty_selection_halts sampleTable [] ["Private room"] (Or.inl rfl)⟩

/-! ## C6 — missing file halts before filtering and charting -/

/-- C6: with the source file absent, `load_data` signals `FileNotFoundError`,
the run surfaces the not-found error and stops, and no chart is rendered (the
filter and chart stages are only reached on a successful load). -/
theorem missing_file_halts :
    load_data none = .error .fileNotFound ∧
    ∀ selG selR : List String, script none selG selR = .errorFileNotFound ∧
      renderedCharts (script none selG selR) = none :=
  ⟨rfl, fun _ _ => ⟨rfl, rfl⟩⟩

/-! ## C7 — the filter stage returns an order-preserving subset -/

/-- C7: the filtered table is a sublist of the loaded table: its rows are a
subset of the input's rows, in the input's order.  The filter is a pure
function of the pristine base table, which it never alters: every invocation
`filteredData data · ·` reads the same unchanged `data`. -/
theorem filtered_is_sublist (t : Table) (A R : List String) :
    (filteredData t A R).Sublist t :=
  List.Sublist.trans (List.filter_sublist _) (List.filter_sublist _)

/-! ## C8 — asymmetric missing-`reviews_per_month` handling -/

/-- C8: the bubble scatter drops every row with missing `reviews_per_month`
(and only those), while the mean-reviews bar keeps such rows in its input —
their neighbourhood group still contributes a bar. -/
theorem missing_rpm_asymmetry (t : Table) :
    (∀ r ∈ t, r.reviews_per_month = none → r ∉ bubbleData t) ∧
    (∀ r ∈ t, r.reviews_per_month ≠ none → r ∈ bubbleData t) ∧
    (∀ r ∈ t, r.neighbourhood_group ∈ (avgReviewsByGroup t).map Prod.fst) := by
  refine ⟨?_, ?_, ?_⟩
  · intro r _ hnone hmem
    rw [bubbleData, List.mem_filter] at hmem
    rw [hnone] at hmem
    simp at hmem
  · intro r hr hsome
    rw [bubbleData, List.mem_filter]
    exact ⟨hr, by simpa [Option.isSome_iff_ne_none] using hsome⟩
  · intro r hr
    simp only [avgReviewsByGroup, List.map_map]
    simp only [Function.comp_def]
    rw [List.mem_map]
    exact ⟨r.neighbourhood_group, (mem_pdUnique _ _).2 (List.mem_map_of_mem _ hr), rfl⟩

/-- Witness for C8: the fixture row with missing `reviews_per_month` is absent
from the bubble scatter's input but its group still appears among the mean
bar's groups. -/
theorem missing_rpm_asymmetry_witness :
    sampleRowM.reviews_per_month = none ∧
    sampleRowM ∉ bubbleData sampleTable ∧
    sampleRowM.neighbourhood_group ∈ (avgReviewsByGroup sampleTable).map Prod.fst :=
  ⟨rfl, (missing_rpm_asymmetry sampleTable).1 sampleRowM (by decide) rfl,
    (missing_rpm_asymmetry sampleTable).2.2 sampleRowM (by decide)⟩

/-! ## C9 — the hover-label column -/

/-- Counterexample to C9 as stated: neither scatter builder's hover label is
the column `name`. -/
theorem hover_not_lowercase_name :
    chartHover (figBubble sampleTable) ≠ some "name" ∧
    chartHover (figScatter sampleTable) ≠ some "name" := by
  decide

/-- C9 (amended: the hover-label column is spelled `NAME`): both scatter
builders pass the `NAME` column as the hover label. -/
theorem hover_label_is_NAME (t : Table) :
    chartHover (figBubble t) = some "NAME" ∧ chartHover (figScatter t) = some "NAME" :=
  ⟨rfl, rfl⟩

/-! ## C10 — count aggregates conserve rows -/

/-- C10: the grouped-bar counts and the donut-pie counts each sum to the
filtered table's row count, and the pie's fractional shares sum to `1`. -/
theorem counts_conserve_rows (t : Table) (h : t ≠ []) :
    ((groupRoomCounts t).map Prod.snd).sum = t.length ∧
    ((roomTypeCounts t).map Prod.snd).sum = t.length ∧
    ((roomTypeCounts t).map (fun p => (p.2 : ℚ) / (t.length : ℚ))).sum = 1 := by
  have h1 : ((groupRoomCounts t).map Prod.snd).sum = t.length := by
    unfold groupRoomCounts
    rw [List.map_map]
    exact sum_group_counts t (fun r => (r.neighbourhood_group, r.room_type))
  have h2 : ((roomTypeCounts t).map Prod.snd).sum = t.length := by
    unfold roomTypeCounts
    rw [List.map_map]
    exact sum_group_counts t Row.room_type
  have hn : ((t.length : ℚ)) ≠ 0 :=
    Nat.cast_ne_zero.2 (fun h0 => h (List.length_eq_zero.1 h0))
  refine ⟨h1, h2, ?_⟩
  rw [list_sum_map_div (roomTypeCounts t) (fun p => (p.2 : ℚ)) (t.length : ℚ)]
  have hcast : ((roomTypeCounts t).map (fun p => ((p.2 : ℕ) : ℚ))).sum
      = (((roomTypeCounts t).map Prod.snd).sum : ℚ) := by
    rw [Nat.cast_list_sum, List.map_map]
    rfl
  rw [hcast, h2, div_self hn]

/-- Witness for C10 at the concrete fixture table. -/
theorem counts_conserve_rows_witness :
    sampleTable ≠ [] ∧
    (((groupRoomCounts sampleTable).map Prod.snd).sum = sampleTable.length ∧
      ((roomTypeCounts sampleTable).map Prod.snd).sum = sampleTable.length ∧
      ((roomTypeCounts sampleTable).map
        (fun p => (p.2 : ℚ) / (sampleTable.length : ℚ))).sum = 1) :=
  ⟨by decide, counts_conserve_rows sampleTable (by decide)⟩

/-! ## Parsing lemmas for the currency coercion -/

theorem splitDot_no_dot (l : List Char) (h : '.' ∉ l) : splitDot l = (l, none) := by
  induction l with
  | nil => rfl
  | cons c cs ih =>
    have hc : ¬ c = '.' := fun hc => h (hc ▸ List.mem_cons_self c cs)
    simp only [splitDot, if_neg hc, List.append_eq]
    rw [ih (fun hm => h (List.mem_cons_of_mem c hm))]

theorem splitDot_append (A B : List Char) (h : '.' ∉ A) :
    splitDot (A ++ '.' :: B) = (A, some B) := by
  induction A with
  | nil => simp [splitDot]
  | cons c cs ih =>
    have hc : ¬ c = '.' := fun hc => h (hc ▸ List.mem_cons_self c cs)
    simp only [List.cons_append, splitDot, if_neg hc, List.append_eq]
    rw [ih (fun hm => h (List.mem_cons_of_mem c hm))]

theorem filter_ne_of_not_mem (l : List Char) (c : Char) (h : c ∉ l) :
    l.filter (fun d => d ≠ c) = l :=
  List.filter_eq_self.2 (fun _ ha => decide_eq_true (fun heq => h (heq ▸ ha)))

theorem filter_ne_cons_self (c : Char) (l : List Char) :
    (c :: l).filter (fun d => d ≠ c) = l.filter (fun d => d ≠ c) := by
  rw [List.filter_cons]
  simp

/-- Every character of a comma-joined group list is a group character or a
comma. -/
theorem mem_commaJoin (groups : List (List Char)) (c : Char) (h : c ∈ commaJoin groups) :
    (∃ g ∈ groups, c ∈ g) ∨ c = ',' := by
  induction groups with
  | nil => cases h
  | cons g gs ih =>
    cases gs with
    | nil => exact Or.inl ⟨g, List.mem_cons_self g [], h⟩
    | cons g2 gs2 =>
      rw [show commaJoin (g :: g2 :: gs2) = g ++ ',' :: commaJoin (g2 :: gs2) from rfl,
        List.mem_append, List.mem_cons] at h
      rcases h with hg | rfl | htail
      · exact Or.inl ⟨g, List.mem_cons_self g _, hg⟩
      · exact Or.inr rfl
      · rcases ih htail with ⟨g', hg', hc'⟩ | hcomma
        · exact Or.inl ⟨g', List.mem_cons_of_mem g hg', hc'⟩
        · exact Or.inr hcomma

/-- Dropping the commas of a comma-joined group list leaves the concatenated
groups, provided no group contains a comma. -/
theorem filter_comma_commaJoin (groups : List (List Char))
    (h : ∀ g ∈ groups, ∀ c ∈ g, ¬ c = ',') :
    (commaJoin groups).filter (fun d => d ≠ ',') = groups.flatten := by
  induction groups with
  | nil => rfl
  | cons g gs ih =>
    have hg : ',' ∉ g := fun hm => h g (List.mem_cons_self g gs) ',' hm rfl
    cases gs with
    | nil =>
      show g.filter (fun d => d ≠ ',') = [g].flatten
      rw [filter_ne_of_not_mem g ',' hg]
      simp
    | cons g2 gs2 =>
      show (g ++ ',' :: commaJoin (g2 :: gs2)).filter (fun d => d ≠ ',') = _
      rw [List.filter_append, filter_ne_of_not_mem g ',' hg, filter_ne_cons_self,
        ih (fun g' hg' => h g' (List.mem_cons_of_mem g hg'))]
      simp [List.flatten_cons]

theorem digit_ne_dash (c : Char) (h : c.isDigit = true) : ¬ c = '-' :=
  fun hc => absurd h (by rw [hc]; decide)

theorem digit_ne_plus (c : Char) (h : c.isDigit = true) : ¬ c = '+' :=
  fun hc => absurd h (by rw [hc]; decide)

theorem digit_ne_dot (c : Char) (h : c.isDigit = true) : ¬ c = '.' :=
  fun hc => absurd h (by rw [hc]; decide)

/-- `parseFloat` on a non-empty digit string with an optional fractional part
returns the exact positional value. -/
theorem parseFloat_digits (c : Char) (cs : List Char) (fp : Option (List Char))
    (hipd : (c :: cs).all Char.isDigit = true)
    (hfpd : ∀ f, fp = some f → f.all Char.isDigit = true) :
    parseFloat ⟨c :: cs ++ fracPart fp⟩
      = some ((digitsToNat (c :: cs) : ℚ) + fracValue fp) := by
  have hc : c.isDigit = true := by
    rw [List.all_cons, Bool.and_eq_true] at hipd
    exact hipd.1
  have hnodot : '.' ∉ (c :: cs) := fun hm =>
    digit_ne_dot '.' (List.all_eq_true.1 hipd '.' hm) rfl
  have hsgn : ¬ c = '-' := digit_ne_dash c hc
  have hsgn2 : ¬ (c = '-' ∨ c = '+') := by
    rintro (h | h)
    · exact digit_ne_dash c hc h
    · exact digit_ne_plus c hc h
  cases fp with
  | none =>
    show parseFloat ⟨c :: cs ++ []⟩ = some ((digitsToNat (c :: cs) : ℚ) + 0)
    unfold parseFloat
    simp only [List.append_nil, List.headD_cons, if_neg hsgn, if_neg hsgn2,
      splitDot_no_dot (c :: cs) hnodot]
    rw [if_pos ⟨List.cons_ne_nil c cs, hipd⟩]
    rw [one_mul, add_zero]
  | some f =>
    have hfd : f.all Char.isDigit = true := hfpd f rfl
    have hfnodot : '.' ∉ f := fun hm =>
      digit_ne_dot '.' (List.all_eq_true.1 hfd '.' hm) rfl
    show parseFloat ⟨c :: cs ++ '.' :: f⟩
        = some ((digitsToNat (c :: cs) : ℚ) + (digitsToNat f : ℚ) / (10 ^ f.length))
    unfold parseFloat
    have hsplit : splitDot (c :: (cs ++ '.' :: f)) = (c :: cs, some f) := by
      have h1 : (c :: (cs ++ '.' :: f) : List Char) = (c :: cs) ++ '.' :: f := rfl
      rw [h1, splitDot_append (c :: cs) f hnodot]
    simp only [List.cons_append, List.headD_cons, if_neg hsgn, if_neg hsgn2, hsplit]
    rw [if_pos ⟨hfnodot, hipd, hfd, Or.inl (List.cons_ne_nil c cs)⟩]
    rw [one_mul]

/-- The two replace calls of line 36 turn a currency-formatted cell into its
bare decimal text: the `'$'` and every `','` are removed, nothing else. -/
theorem stripCurrency_currencyText (groups : List (List Char)) (frac : Option (List Char))
    (hgd : ∀ g ∈ groups, g.all Char.isDigit = true)
    (hfd : ∀ f, frac = some f → f.all Char.isDigit = true) :
    stripCurrency (currencyText groups frac) = ⟨groups.flatten ++ fracPart frac⟩ := by
  have hcj : ∀ c ∈ commaJoin groups, c.isDigit = true ∨ c = ',' := by
    intro c hc
    rcases mem_commaJoin groups c hc with ⟨g, hgmem, hcg⟩ | rfl
    · exact Or.inl (List.all_eq_true.1 (hgd g hgmem) c hcg)
    · exact Or.inr rfl
  have hfp : ∀ c ∈ fracPart frac, c.isDigit = true ∨ c = '.' := by
    intro c hc
    cases frac with
    | none => cases hc
    | some f =>
      rcases List.mem_cons.1 hc with rfl | hcf
      · exact Or.inr rfl
      · exact Or.inl (List.all_eq_true.1 (hfd f rfl) c hcf)
  have hdollar : '$' ∉ commaJoin groups ++ fracPart frac := by
    intro hm
    rcases List.mem_append.1 hm with hm | hm
    · rcases hcj '$' hm with hd | hd
      · exact absurd hd (by decide)
      · exact absurd hd (by decide)
    · rcases hfp '$' hm with hd | hd
      · exact absurd hd (by decide)
      · exact absurd hd (by decide)
  have hcommafp : ',' ∉ fracPart frac := by
    intro hm
    rcases hfp ',' hm with hd | hd
    · exact absurd hd (by decide)
    · exact absurd hd (by decide)
  show removeChar ',' (removeChar '$' ⟨'$' :: (commaJoin groups ++ fracPart frac)⟩) = _
  unfold removeChar
  apply congrArg String.mk
  rw [show (String.mk ('$' :: (commaJoin groups ++ fracPart frac))).data
      = '$' :: (commaJoin groups ++ fracPart frac) from rfl]
  rw [filter_ne_cons_self, filter_ne_of_not_mem _ '$' hdollar]
  rw [show (String.mk (commaJoin groups ++ fracPart frac)).data
      = commaJoin groups ++ fracPart frac from rfl]
  rw [List.filter_append,
    filter_comma_commaJoin groups
      (fun g hg c hc hcc =>
        absurd (List.all_eq_true.1 (hgd g hg) c hc) (by rw [hcc]; decide)),
    filter_ne_of_not_mem _ ',' hcommafp]

/-! ## C2 — currency coercion is exact and idempotent -/

/-- C2: stripping `$` and `,` from a currency-formatted cell and parsing gives
its exact value (in particular `"$2,000"` coerces to the number `2000`, not
`2` and not a string); an already-numeric column passes through unchanged; and
the column coercion is idempotent: whatever it produces, coercing again is the
identity. -/
theorem currency_coercion_exact (groups : List (List Char)) (frac : Option (List Char))
    (hg : groups ≠ [])
    (hgd : ∀ g ∈ groups, g ≠ [] ∧ g.all Char.isDigit = true)
    (hfd : ∀ f, frac = some f → f ≠ [] ∧ f.all Char.isDigit = true) :
    parseFloat (stripCurrency (currencyText groups frac)) = some (currencyValue groups frac) ∧
    coerceNumeric (.objCol [some "$2,000"]) = .ok (.numCol [some 2000]) ∧
    (∀ cells, coerceNumeric (.numCol cells) = .ok (.numCol cells)) ∧
    (∀ col out, coerceNumeric col = .ok out → coerceNumeric out = .ok out) := by
  have hp : parseFloat (stripCurrency "$2,000") = some (2000 : ℚ) := by
    have h1 : stripCurrency "$2,000" = ⟨['2', '0', '0', '0']⟩ := rfl
    rw [h1]
    have h2 : parseFloat ⟨['2', '0', '0', '0']⟩
        = some ((digitsToNat ['2', '0', '0', '0'] : ℚ) + fracValue none) :=
      parseFloat_digits '2' ['0', '0', '0'] none (by decide) (fun f hf => by cases hf)
    rw [h2, show digitsToNat ['2', '0', '0', '0'] = 2000 from by decide]
    norm_num [fracValue]
  refine ⟨?_, ?_, fun cells => rfl, ?_⟩
  · rw [stripCurrency_currencyText groups frac (fun g hg' => (hgd g hg').2)
      (fun f hf => (hfd f hf).2)]
    obtain ⟨c, cs, hflat⟩ : ∃ c cs, groups.flatten = c :: cs := by
      cases groups with
      | nil => exact absurd rfl hg
      | cons g gs =>
        obtain ⟨hgne, -⟩ := hgd g (List.mem_cons_self g gs)
        cases g with
        | nil => exact absurd rfl hgne
        | cons d g' => exact ⟨d, g' ++ gs.flatten, by simp⟩
    have hflatd : (groups.flatten).all Char.isDigit = true := by
      rw [List.all_eq_true]
      intro x hx
      obtain ⟨g, hgmem, hxg⟩ := List.mem_flatten.1 hx
      exact List.all_eq_true.1 (hgd g hgmem).2 x hxg
    rw [hflat] at hflatd ⊢
    unfold currencyValue
    rw [hflat]
    exact parseFloat_digits c cs frac hflatd (fun f hf => (hfd f hf).2)
  · have hast : astypeFloat [some "$2,000"] = some [some (2000 : ℚ)] := by
      have he : astypeFloat [some "$2,000"]
          = (coerceCell (some "$2,000")).bind
              (fun v => (astypeFloat []).bind (fun vs => some (v :: vs))) := rfl
      rw [he, show coerceCell (some "$2,000")
          = (parseFloat (stripCurrency "$2,000")).map some from rfl, hp]
      rfl
    show (match astypeFloat [some "$2,000"] with
        | some o => Except.ok (Col.numCol o)
        | none => Except.error LoadErr.valueError) = Except.ok (Col.numCol [some 2000])
    rw [hast]
  · intro col out h
    cases col with
    | objCol cells =>
      have h' : (match astypeFloat cells with
          | some o => Except.ok (Col.numCol o)
          | none => Except.error LoadErr.valueError) = Except.ok out := h
      cases hh : astypeFloat cells with
      | some vs => rw [hh] at h'; cases h'; rfl
      | none => rw [hh] at h'; cases h'
    | numCol cells => cases h; rfl
    | dateCol cells => cases h; rfl

/-- Witness for C2 at the concrete cell `"$2,000"` (groups `2` and `000`, no
fractional part). -/
theorem currency_coercion_exact_witness :
    ((([['2'], ['0', '0', '0']] : List (List Char)) ≠ []) ∧
      (∀ g ∈ ([['2'], ['0', '0', '0']] : List (List Char)),
        g ≠ [] ∧ g.all Char.isDigit = true)) ∧
    parseFloat (stripCurrency (currencyText [['2'], ['0', '0', '0']] none))
      = some (currencyValue [['2'], ['0', '0', '0']] none) :=
  ⟨⟨by decide, by decide⟩,
    (currency_coercion_exact [['2'], ['0', '0', '0']] none (by decide) (by decide)
      (fun f hf => by cases hf)).1⟩

/-! ## Column assignment lemmas for the loader -/

theorem getCol_setCol_self (df : DataFrame) (n : String) (c' : Col) :
    getCol (setCol df n c') n = (getCol df n).map (fun _ => c') := by
  obtain ⟨cols⟩ := df
  show ((cols.map (fun p => if p.1 = n then (p.1, c') else p)).find?
      (fun p => p.1 = n)).map (fun p => p.2)
    = ((cols.find? (fun p => p.1 = n)).map (fun p => p.2)).map (fun _ => c')
  induction cols with
  | nil => rfl
  | cons p ps ih =>
    rw [List.map_cons, List.find?_cons, List.find?_cons]
    by_cases hpn : p.1 = n
    · rw [if_pos hpn]
      have hfst : ((p.1, c') : String × Col).1 = p.1 := rfl
      rw [hfst, decide_eq_true hpn]
      rfl
    · rw [if_neg hpn, decide_eq_false hpn]
      exact ih

theorem getCol_setCol_ne (df : DataFrame) (n m : String) (c' : Col) (hmn : ¬ m = n) :
    getCol (setCol df n c') m = getCol df m := by
  obtain ⟨cols⟩ := df
  show ((cols.map (fun p => if p.1 = n then (p.1, c') else p)).find?
      (fun p => p.1 = m)).map (fun p => p.2)
    = ((cols.find? (fun p => p.1 = m)).map (fun p => p.2))
  induction cols with
  | nil => rfl
  | cons p ps ih =>
    rw [List.map_cons, List.find?_cons, List.find?_cons]
    by_cases hpn : p.1 = n
    · have hpm : ¬ p.1 = m := fun hpm => hmn (by rw [← hpm, hpn])
      rw [if_pos hpn]
      have hfst : ((p.1, c') : String × Col).1 = p.1 := rfl
      rw [hfst, decide_eq_false hpm]
      exact ih
    · rw [if_neg hpn]
      by_cases hpm : p.1 = m
      · rw [decide_eq_true hpm]
      · rw [decide_eq_false hpm]
        exact ih

/-- Whatever dtype-directed coercion returns is itself coercible (it returns a
numeric or date column, never an `object` one). -/
theorem coerceOk_of_ok (c c' : Col) (h : coerceNumeric c = .ok c') :
    coerceOk c' = true := by
  cases c with
  | objCol cells =>
    have h' : (match astypeFloat cells with
        | some o => Except.ok (Col.numCol o)
        | none => Except.error LoadErr.valueError) = Except.ok c' := h
    cases hh : astypeFloat cells with
    | some vs => rw [hh] at h'; cases h'; rfl
    | none => rw [hh] at h'; cases h'
  | numCol cells => cases h; rfl
  | dateCol cells => cases h; rfl

/-- If every column of `names` is present and coercible, the coercion loop of
lines 34–38 succeeds and preserves which columns are present. -/
theorem foldlM_coerce_ok (names : List String) :
    ∀ df : DataFrame, names.all (coerceColOk df) = true →
    ∃ df', names.foldlM coerceStep df = Except.ok df' ∧
      ∀ m, (getCol df' m).isSome = (getCol df m).isSome := by
  induction names with
  | nil =>
    intro df _
    exact ⟨df, rfl, fun m => rfl⟩
  | cons n ns ih =>
    intro df hall
    rw [List.all_cons, Bool.and_eq_true] at hall
    obtain ⟨hn, hns⟩ := hall
    unfold coerceColOk at hn
    cases hgc : getCol df n with
    | none =>
      rw [hgc] at hn
      exact absurd hn (by simp)
    | some c =>
      rw [hgc] at hn
      have hn' : coerceOk c = true := hn
      unfold coerceOk at hn'
      cases hcn : coerceNumeric c with
      | error e =>
        rw [hcn] at hn'
        exact absurd hn' (by simp)
      | ok c' =>
        have hstep : coerceStep df n = Except.ok (setCol df n c') := by
          have h1 : coerceStep df n
              = (coerceNumeric c).bind (fun c'' => Except.ok (setCol df n c'')) := by
            unfold coerceStep
            rw [hgc]
            rfl
          rw [h1, hcn]
          rfl
        have hall2 : ns.all (coerceColOk (setCol df n c')) = true := by
          rw [List.all_eq_true] at hns ⊢
          intro m hm
          have hmok := hns m hm
          unfold coerceColOk at hmok ⊢
          by_cases hmn : m = n
          · subst hmn
            simp only [getCol_setCol_self, hgc, Option.map_some]
            exact coerceOk_of_ok c c' hcn
          · rw [getCol_setCol_ne df n m c' hmn]
            exact hmok
        obtain ⟨df', hfold, hpres⟩ := ih (setCol df n c') hall2
        refine ⟨df', ?_, ?_⟩
        · rw [List.foldlM_cons, hstep]
          show ns.foldlM coerceStep (setCol df n c') = Except.ok df'
          exact hfold
        · intro m
          rw [hpres m]
          by_cases hmn : m = n
          · subst hmn
            rw [getCol_setCol_self, hgc]
            rfl
          · rw [getCol_setCol_ne df n m c' hmn]

/-! ## C1 — what the load handles locally, and what makes it raise -/

/-- Counterexample to C1 as stated: a file that exists and parses as a CSV
with a header row, whose `object`-typed `price` column holds the unparseable
cell `"abc"` — `load_data` raises (`ValueError` from `astype(float)`) instead
of coercing the cell to missing. -/
theorem unparseable_cell_raises :
    load_data (some badFrame) = .error .valueError :=
  rfl

/-- C1 (amended): per-cell anomalies are handled locally only where the code
uses lenient conversion — a non-`object`-typed designated numeric column
passes through `pd.to_numeric(errors='coerce')` unchanged, and `last_review`
is date-parsed totally, with unparseable values becoming missing; but an
unparseable cell in an `object`-typed designated numeric column raises, as
does an absent designated numeric column.  When none of these occur — every
designated numeric column present and coercible and `last_review` present —
the load succeeds. -/
theorem load_succeeds_when_ready (df : DataFrame)
    (h : loadReady (normalizeFrame df) = true) :
    (∃ out, load_data (some df) = Except.ok out) ∧
    (∀ cells, coerceNumeric (.numCol cells) = .ok (.numCol cells)) ∧
    (∀ c, ∃ cells, toDatetimeCoerce c = .dateCol cells) := by
  unfold loadReady at h
  rw [Bool.and_eq_true] at h
  obtain ⟨hall, hlr⟩ := h
  obtain ⟨df', hfold, hpres⟩ := foldlM_coerce_ok numeric_cols (normalizeFrame df) hall
  have hlr' : (getCol df' "last_review").isSome = true := by
    rw [hpres]
    exact hlr
  cases hg : getCol df' "last_review" with
  | none => rw [hg] at hlr'; cases hlr'
  | some c =>
    refine ⟨⟨setCol df' "last_review" (toDatetimeCoerce c), ?_⟩, fun cells => rfl, ?_⟩
    · have hld : load_data (some df)
          = (numeric_cols.foldlM coerceStep (normalizeFrame df)) >>= (fun df₂ =>
              match getCol df₂ "last_review" with
              | none => Except.error LoadErr.keyError
              | some c => pure (setCol df₂ "last_review" (toDatetimeCoerce c))) := rfl
      rw [hld, hfold]
      show (match getCol df' "last_review" with
          | none => Except.error LoadErr.keyError
          | some c => pure (setCol df' "last_review" (toDatetimeCoerce c)))
        = Except.ok (setCol df' "last_review" (toDatetimeCoerce c))
      rw [hg]
      rfl
    · intro c0
      cases c0 <;> exact ⟨_, rfl⟩

/-- Witness for the amended C1 at a concrete well-formed frame (with a
whitespace-padded header, currency text cells, a missing numeric cell and an
unparseable date). -/
theorem load_succeeds_when_ready_witness :
    loadReady (normalizeFrame goodFrame) = true ∧
    ((∃ out, load_data (some goodFrame) = Except.ok out) ∧
      (∀ cells, coerceNumeric (.numCol cells) = .ok (.numCol cells)) ∧
      (∀ c, ∃ cells, toDatetimeCoerce c = .dateCol cells)) :=
  ⟨by decide, load_succeeds_when_ready goodFrame (by decide)⟩

end AirbnbDashboard
